/-
  Verification development for the `sst_common_sim` detector-simulation
  shims (`sst_common_sim/detectors.py`).

  The Python source is shallowly embedded: pure computations become Lean
  functions, mutable device state becomes explicit state passing, the
  `numpy` random generator becomes an explicit stream-of-draws record, and
  fallible operations (a raising input function, `float()` parsing) return
  `Option`.  Machine floats that only carry exact decimal values in the
  behaviours under study are modelled as rationals / reals.
-/
import Mathlib

set_option autoImplicit false

namespace SstSim

/-! ## Completion handles and the trigger protocol

`SynSignalDelayed.trigger` builds a `DeviceStatus`, reads `exposure_time`,
and either spawns a daemon thread that sleeps `delay_time` seconds and then
finishes the status (Python truthiness: any nonzero delay), or finishes the
status synchronously before returning.  `SimI400Base.trigger` always spawns
a `_acquire` thread and returns the still-unfinished status.

A `TriggerResult` records the observable outcome of one `trigger()` call:
the state of the returned handle at the moment `trigger()` returns (a
spawned worker is modelled as not yet having run at that point), whether a
background worker was spawned, and how long that worker sleeps before
finishing the handle (`none` when no worker was spawned, or when the
worker's duration parse fails). -/

inductive HandleState where
  | pending
  | finished
deriving DecidableEq

structure TriggerResult where
  handle : HandleState
  spawnedWorker : Bool
  workerSleep : Option ℚ
deriving DecidableEq

/-- Embedding of `SynSignalDelayed.trigger` (detectors.py lines 15-27):
`delay_time = self.exposure_time`; `if delay_time:` spawn
`sleep_and_finish` (sleeps `delay_time`, then `st.set_finished()`),
`else: st.set_finished()` synchronously. -/
def synSignalDelayed_trigger (exposure_time : ℚ) : TriggerResult :=
  if exposure_time = 0 then
    { handle := .finished, spawnedWorker := false, workerSleep := none }
  else
    { handle := .pending, spawnedWorker := true, workerSleep := some exposure_time }

/-! ## SynSignalDelayed.read and the lazy re-computation semantics

`SynSignalDelayed.read` is `self.put(self._func()); return super().read()`:
it re-invokes the compute function and returns exactly the value just put.
The zero-argument compute closure reads the device's current mutable
configuration, which we make explicit as a `cfg` field of type `C`. -/

structure SynSignalDelayedState (C : Type) where
  cfg : C
  stored : ℚ

/-- Embedding of `SynSignalDelayed.read` (detectors.py lines 29-31): the
compute function is evaluated against the current configuration, the
signal's readback is updated to that value, and the same value is
returned. -/
def synSignalDelayed_read {C : Type} (func : C → ℚ) (s : SynSignalDelayedState C) :
    ℚ × SynSignalDelayedState C :=
  let v := func s.cfg
  (v, { s with stored := v })

/-- Operations a caller may perform on a device between reads: mutate a
configuration parameter, or trigger (which for `SynSignalDelayed` only
creates a completion handle and touches neither the configuration nor the
stored readback nor the compute function). -/
inductive DevOp (C : Type) where
  | mutate (c : C)
  | trigger

/-- Apply a sequence of caller operations to the device state. -/
def applyOps {C : Type} : SynSignalDelayedState C → List (DevOp C) → SynSignalDelayedState C
  | s, [] => s
  | s, .mutate c :: rest => applyOps { s with cfg := c } rest
  | s, .trigger :: rest => applyOps s rest

/-- Apply a sequence of configuration mutations (no reads, no triggers). -/
def applyMutations {C : Type} : List C → SynSignalDelayedState C → SynSignalDelayedState C
  | [], s => s
  | c :: rest, s => applyMutations rest { s with cfg := c }

/-- Embedding of `DerivedSynDevice._compute` (detectors.py lines 162-163):
`return self.signal.val.get()` — the dependency signal's currently stored
readback, with no recomputation of the dependency. -/
def derivedSyn_compute {C : Type} (dep : SynSignalDelayedState C) : ℚ :=
  dep.stored

/-! ## SynLinear -/

structure SynLinearCfg where
  slope : ℚ
  offset : ℚ

/-- Embedding of `SynLinear._compute` (detectors.py lines 90-94):
`x = self._x(); m = self.slope.get(); b = self.offset.get(); return m*x + b`. -/
def synLinear_compute (cfg : SynLinearCfg) (x : ℚ) : ℚ :=
  let m := cfg.slope
  let b := cfg.offset
  m * x + b

structure SynLinearDev where
  offset : ℚ
  slope : ℚ
  valStored : ℚ
deriving DecidableEq

/-- Embedding of `SynLinear.__init__` (detectors.py lines 96-102): store
`offset`, `slope` and the input function, then `self.trigger()`, which
(through the base signal with zero exposure time) synchronously evaluates
`_compute`, calling the input function `x` exactly once.  The input
function is fallible (`Option`); its failure propagates out of the
constructor.  The second component counts how many times `x` was invoked
during construction. -/
def synLinear_init (x : Option ℚ) (offset slope : ℚ) : Option SynLinearDev × ℕ :=
  match x with
  | none => (none, 1)
  | some xv => (some ⟨offset, slope, synLinear_compute ⟨slope, offset⟩ xv⟩, 1)

/-! ## Decimal text round-trip for the exposure-time setter

`SimI400Base.set_exposure` stores `f"{exp_time}"` into the `exposure_sp`
signal; `_acquire` later evaluates `float(self.exposure_sp.get())`.  The
exposure durations are nonnegative numbers with a finite decimal
expansion; `PyDecimal` carries the integer part and the list of fractional
digits. -/

structure PyDecimal where
  intPart : ℕ
  fracDigits : List ℕ
deriving DecidableEq

/-- Numeric value of a decimal: integer part plus the fractional digits. -/
def PyDecimal.value (d : PyDecimal) : ℚ :=
  (d.intPart : ℚ) + List.foldr (fun (dig : ℕ) (acc : ℚ) => ((dig : ℚ) + acc) / 10) 0 d.fracDigits

/-- A decimal is well-formed when every fractional digit is below 10. -/
def PyDecimal.Valid (d : PyDecimal) : Prop :=
  ∀ dig ∈ d.fracDigits, dig < 10

instance (d : PyDecimal) : Decidable d.Valid := by
  unfold PyDecimal.Valid; infer_instance

/-- Inverse of `Nat.digitChar` on decimal digits: the character codes of
`'0'`–`'9'` are `48`–`57`. -/
def charToDigit (c : Char) : Option ℕ :=
  if 48 ≤ c.toNat ∧ c.toNat ≤ 57 then some (c.toNat - 48) else none

/-- Decimal character rendering of a natural number, most significant
digit first (`str` of the integer part). -/
def natToChars (n : ℕ) : List Char :=
  if n = 0 then ['0'] else ((Nat.digits 10 n).map Nat.digitChar).reverse

/-- Parse a nonempty run of decimal digit characters, most significant
digit first. -/
def parseDigitList : List Char → Option (List ℕ)
  | [] => some []
  | c :: rest =>
    match charToDigit c, parseDigitList rest with
    | some d, some ds => some (d :: ds)
    | _, _ => none

/-- Parse the integer part: at least one digit character. -/
def parseNatChars (cs : List Char) : Option ℕ :=
  if cs.isEmpty then none
  else (parseDigitList cs).map (fun ds => ds.foldl (fun a d => 10 * a + d) 0)

/-- Split a character list at the first `'.'`. -/
def splitDot : List Char → Option (List Char × List Char)
  | [] => none
  | c :: rest =>
    if c = '.' then some ([], rest)
    else (splitDot rest).map (fun p => (c :: p.1, p.2))

/-- Model of Python's `f"{x}"` for a nonnegative float: decimal rendering
of the integer part, a point, then the fractional digits (Python always
prints at least one fractional digit for a float, so an empty fractional
part renders as `"…0"`). -/
def pyFStr (d : PyDecimal) : String :=
  ⟨natToChars d.intPart ++ '.' ::
    (if d.fracDigits.isEmpty then ['0'] else d.fracDigits.map Nat.digitChar)⟩

/-- Model of Python's `float()` builtin on the decimal forms produced by
formatting: integer digits, a point, fractional digits. -/
def pyFloatParse (s : String) : Option PyDecimal :=
  (splitDot s.data).bind fun p =>
    (parseNatChars p.1).bind fun n =>
      (parseDigitList p.2).map fun fd => ⟨n, fd⟩

/-! ## SimI400Base -/

structure SimI400State where
  exposure_sp : String
deriving DecidableEq

/-- Embedding of `SimI400Base.set_exposure` (detectors.py lines 177-178):
`self.exposure_sp.set(f"{exp_time}")` — the duration is stored as text. -/
def set_exposure (exp_time : PyDecimal) (_s : SimI400State) : SimI400State :=
  { exposure_sp := pyFStr exp_time }

/-- Embedding of the duration computation in `SimI400Base._acquire`
(detectors.py lines 180-184): `t = float(self.exposure_sp.get())`, the
number of seconds the acquisition worker sleeps before finishing the
status. -/
def simI400_acquire_duration (s : SimI400State) : Option ℚ :=
  (pyFloatParse s.exposure_sp).map PyDecimal.value

/-- Embedding of `SimI400Base.trigger` (detectors.py lines 186-189): a
fresh `DeviceStatus` is created, a `_acquire` thread is spawned
unconditionally, and the still-unfinished status is returned — there is no
zero-delay fast path. -/
def simI400_trigger (s : SimI400State) : TriggerResult :=
  { handle := .pending
    spawnedWorker := true
    workerSleep := simI400_acquire_duration s }

/-! ## The numpy-style random generator

`numpy` generators are modelled as a pair of streams of elementary draws
together with a cursor into each: `unitVals n` is the `n`-th uniform draw
on `[0,1)` and `stdNormalVals n` the `n`-th standard-normal draw.
`uniform lo hi` and `normal mean sigma` are the generator's methods, each
consuming one elementary draw. -/

structure Rng where
  unitVals : ℕ → ℝ
  stdNormalVals : ℕ → ℝ
  uIdx : ℕ
  nIdx : ℕ

/-- A generator is well-formed when its uniform stream really draws from
`[0,1)`. -/
def Rng.Wf (r : Rng) : Prop :=
  ∀ n, 0 ≤ r.unitVals n ∧ r.unitVals n < 1

/-- `random_state.uniform(lo, hi)`: a draw from the continuous uniform
distribution on `[lo, hi)`. -/
noncomputable def Rng.uniform (r : Rng) (lo hi : ℝ) : ℝ × Rng :=
  (lo + (hi - lo) * r.unitVals r.uIdx, { r with uIdx := r.uIdx + 1 })

/-- `random_state.normal(mean, sigma)`: a draw from the normal
distribution with the given mean and standard deviation, realised as
`mean + sigma * z` with `z` a standard-normal draw. -/
noncomputable def Rng.normal (r : Rng) (mean sigma : ℝ) : ℝ × Rng :=
  (mean + sigma * r.stdNormalVals r.nIdx, { r with nIdx := r.nIdx + 1 })

/-! ## The erf-profile detector -/

/-- Embedding of `norm_erf` (detectors.py lines 9-10):
`0.5*(erf(2.0*x/width) + 1)`, with `Real.erf` the Gauss error function
implemented by `scipy.special.erf`. -/
noncomputable def erf (x : ℝ) : ℝ :=
  (2 / Real.sqrt Real.pi) * ∫ t in (0:ℝ)..x, Real.exp (-t ^ 2)

noncomputable def norm_erf (x width : ℝ) : ℝ :=
  0.5 * (erf (2.0 * x / width) + 1)

/-- The three values of the `noise` EnumSignal. -/
inductive NoiseKind where
  | none
  | uniform
  | normal
deriving DecidableEq

/-- The configuration signals of `SynErf` (detectors.py lines 34-43). -/
structure SynErfCfg where
  Imax : ℝ
  center : ℝ
  width : ℝ
  noise : NoiseKind
  noise_multiplier : ℝ
  noise_sigma : ℝ

/-- `self.sign = 1 if transmission else -1` (detectors.py line 65). -/
def synErf_sign (transmission : Bool) : ℝ :=
  if transmission then 1 else -1

/-- Embedding of `SynErf._compute` (detectors.py lines 44-58).  The
distance function's successful return value is the `dist` argument; the
generator is threaded explicitly.  `center` is fetched from its signal but
(as in the source) never used in the computed value. -/
noncomputable def synErf_compute (cfg : SynErfCfg) (sign : ℝ) (dist : ℝ) (rng : Rng) :
    ℝ × Rng :=
  let d := dist * sign
  let width := cfg.width
  let _center := cfg.center
  let Imax := cfg.Imax
  let v := Imax * norm_erf d width
  match cfg.noise with
  | .normal => rng.normal v cfg.noise_sigma
  | .uniform =>
    let (u, rng') := rng.uniform (-1) 1
    (v + u * cfg.noise_multiplier, rng')
  | .none => (v, rng)

/-- The deterministic base value of the erf profile,
`Imax * norm_erf(distance()*sign, width)`, before noise is applied. -/
noncomputable def synErf_baseValue (cfg : SynErfCfg) (sign : ℝ) (dist : ℝ) : ℝ :=
  cfg.Imax * norm_erf (dist * sign) cfg.width

/-- What `self.random_state` refers to after `SynErf.__init__`: the
injected generator when one was supplied, otherwise the process-wide
generator `np.random` (detectors.py lines 73-75). -/
inductive RngSource where
  | processWide
  | injected (r : Rng)

def synErf_init_randomState (random_state : Option Rng) : RngSource :=
  match random_state with
  | Option.none => RngSource.processWide
  | some r => RngSource.injected r

/-- Dereference a generator source against the current process-wide
generator. -/
def resolveRng : RngSource → Rng → Rng
  | .processWide, g => g
  | .injected r, _ => r

/-- The value produced by one evaluation of `SynErf._compute` in a process
whose process-wide generator is `g`, for a device whose stored
`random_state` is `src`. -/
noncomputable def synErf_read_value (cfg : SynErfCfg) (sign dist : ℝ)
    (src : RngSource) (g : Rng) : ℝ :=
  (synErf_compute cfg sign dist (resolveRng src g)).1

/-- The device state built by `SynErf.__init__` (detectors.py lines
60-79).  The distance function is stored fallible and, per the `# Don't
trigger during __init__` comment, is never invoked during construction:
the construction always succeeds, `val` holds no computed readback, and
the second component counts the distance-function invocations made during
construction (zero). -/
structure SynErfDev where
  cfg : SynErfCfg
  sign : ℝ
  distance : Option ℝ
  randomState : RngSource
  valStored : Option ℝ

noncomputable def synErf_init (distance_function : Option ℝ) (width : ℝ)
    (noise : NoiseKind) (noise_sigma noise_multiplier : ℝ)
    (random_state : Option Rng) (transmission : Bool) : SynErfDev × ℕ :=
  (⟨⟨1, 0, width, noise, noise_multiplier, noise_sigma⟩,
    synErf_sign transmission, distance_function,
    synErf_init_randomState random_state, Option.none⟩, 0)

/-! ## The normal-distributed detector -/

/-- The configuration signals of `SynNormal` (detectors.py lines 106-109). -/
structure SynNormalCfg where
  center : ℝ
  width : ℝ

/-- Embedding of `SynNormal._compute` (detectors.py lines 111-115):
`v = np.random.normal(center, width)` — the draw comes from the
process-wide generator `np.random`; the device has no generator of its
own. -/
noncomputable def synNormal_compute (cfg : SynNormalCfg) (globalRng : Rng) : ℝ × Rng :=
  globalRng.normal cfg.center cfg.width

structure SynNormalDev where
  center : ℝ
  width : ℝ
  valStored : ℝ

/-- Embedding of `SynNormal.__init__` (detectors.py lines 117-123): store
`center` and `width`, then `self.trigger()`, which synchronously evaluates
`_compute` once, drawing once from the process-wide generator.  Note the
constructor signature carries no generator parameter. -/
noncomputable def synNormal_init (width center : ℝ) (globalRng : Rng) :
    SynNormalDev × Rng :=
  let (v, g') := synNormal_compute ⟨center, width⟩ globalRng
  (⟨center, width, v⟩, g')

/-! ## Helper lemmas: decimal formatting and parsing -/

lemma charToDigit_digitChar {d : ℕ} (hd : d < 10) :
    charToDigit (Nat.digitChar d) = some d := by
  interval_cases d <;> decide

lemma digitChar_ne_dot {d : ℕ} (hd : d < 10) : Nat.digitChar d ≠ '.' := by
  interval_cases d <;> decide

lemma parseDigitList_map {l : List ℕ} (h : ∀ d ∈ l, d < 10) :
    parseDigitList (l.map Nat.digitChar) = some l := by
  induction l with
  | nil => rfl
  | cons d t ih =>
    simp only [List.map_cons, parseDigitList]
    rw [charToDigit_digitChar (h d (by simp)),
      ih (fun x hx => h x (List.mem_cons_of_mem _ hx))]

lemma foldr_eq_ofDigits (l : List ℕ) :
    l.foldr (fun d a => 10 * a + d) 0 = Nat.ofDigits 10 l := by
  induction l with
  | nil => simp [Nat.ofDigits]
  | cons d t ih =>
    simp only [List.foldr_cons, Nat.ofDigits_cons, ih]
    omega

lemma natToChars_digits_lt (n : ℕ) : ∀ c ∈ natToChars n, ∃ d < 10, c = Nat.digitChar d := by
  intro c hc
  unfold natToChars at hc
  by_cases hn : n = 0
  · rw [if_pos hn] at hc
    simp only [List.mem_singleton] at hc
    exact ⟨0, by norm_num, hc⟩
  · rw [if_neg hn, List.mem_reverse, List.mem_map] at hc
    obtain ⟨d, hd, rfl⟩ := hc
    exact ⟨d, Nat.digits_lt_base (by norm_num) hd, rfl⟩

lemma natToChars_ne_dot (n : ℕ) : ∀ c ∈ natToChars n, c ≠ '.' := by
  intro c hc
  obtain ⟨d, hd, rfl⟩ := natToChars_digits_lt n c hc
  exact digitChar_ne_dot hd

lemma parseNatChars_natToChars (n : ℕ) : parseNatChars (natToChars n) = some n := by
  by_cases hn : n = 0
  · subst hn; rfl
  · have hne : natToChars n ≠ [] := by
      unfold natToChars
      rw [if_neg hn]
      intro hcontra
      exact (Nat.digits_ne_nil_iff_ne_zero.mpr hn)
        (List.map_eq_nil_iff.mp (List.reverse_eq_nil_iff.mp hcontra))
    unfold parseNatChars
    rw [if_neg (by simpa [List.isEmpty_iff] using hne)]
    unfold natToChars
    rw [if_neg hn, ← List.map_reverse,
      parseDigitList_map (fun d hd =>
        Nat.digits_lt_base (by norm_num) (List.mem_reverse.mp hd))]
    rw [Option.map_some', List.foldl_reverse, foldr_eq_ofDigits, Nat.ofDigits_digits]

lemma splitDot_append {a b : List Char} (h : ∀ c ∈ a, c ≠ '.') :
    splitDot (a ++ '.' :: b) = some (a, b) := by
  induction a with
  | nil => simp [splitDot]
  | cons c t ih =>
    have hc : c ≠ '.' := h c (by simp)
    show (if c = '.' then some ([], t ++ '.' :: b)
          else (splitDot (t ++ '.' :: b)).map fun p => (c :: p.1, p.2)) = _
    rw [if_neg hc, ih (fun x hx => h x (List.mem_cons_of_mem _ hx))]
    rfl

/-- Parsing inverts formatting, with an empty fractional part rendered and
re-read as the single digit `0`. -/
lemma pyFloatParse_pyFStr (d : PyDecimal) (h : d.Valid) :
    pyFloatParse (pyFStr d) =
      some ⟨d.intPart, if d.fracDigits.isEmpty then [0] else d.fracDigits⟩ := by
  have hdata : (pyFStr d).data = natToChars d.intPart ++ '.' ::
      (if d.fracDigits.isEmpty then ['0'] else d.fracDigits.map Nat.digitChar) := rfl
  simp only [pyFloatParse, hdata, splitDot_append (natToChars_ne_dot d.intPart),
    Option.some_bind, parseNatChars_natToChars]
  by_cases hf : d.fracDigits.isEmpty
  · rw [if_pos hf, if_pos hf]
    rfl
  · rw [if_neg hf, if_neg hf, parseDigitList_map h, Option.map_some']

/-- A sequence of pure configuration mutations never touches the stored
readback. -/
lemma applyMutations_stored {C : Type} (muts : List C) (s : SynSignalDelayedState C) :
    (applyMutations muts s).stored = s.stored := by
  induction muts generalizing s with
  | nil => rfl
  | cons c rest ih => exact ih _

/-! ## Helper lemmas: the error function -/

lemma continuous_gaussian : Continuous fun t : ℝ => Real.exp (-t ^ 2) :=
  Real.continuous_exp.comp (continuous_pow 2).neg

lemma gaussian_intervalIntegrable (a b : ℝ) :
    IntervalIntegrable (fun t : ℝ => Real.exp (-t ^ 2)) MeasureTheory.volume a b :=
  continuous_gaussian.intervalIntegrable a b

lemma erf_coeff_pos : 0 < 2 / Real.sqrt Real.pi :=
  div_pos two_pos (Real.sqrt_pos.mpr Real.pi_pos)

lemma erf_monotone : Monotone erf := by
  intro x y hxy
  unfold erf
  have hadj := intervalIntegral.integral_add_adjacent_intervals
    (gaussian_intervalIntegrable 0 x) (gaussian_intervalIntegrable x y)
  have hnn : 0 ≤ ∫ t in x..y, Real.exp (-t ^ 2) :=
    intervalIntegral.integral_nonneg hxy (fun u _ => (Real.exp_pos _).le)
  have hle : (∫ t in (0:ℝ)..x, Real.exp (-t ^ 2)) ≤ ∫ t in (0:ℝ)..y, Real.exp (-t ^ 2) := by
    rw [← hadj]; linarith
  exact mul_le_mul_of_nonneg_left hle erf_coeff_pos.le

lemma erf_strictMono : StrictMono erf := by
  intro x y hxy
  unfold erf
  have hadj := intervalIntegral.integral_add_adjacent_intervals
    (gaussian_intervalIntegrable 0 x) (gaussian_intervalIntegrable x y)
  have hpos : 0 < ∫ t in x..y, Real.exp (-t ^ 2) :=
    intervalIntegral.intervalIntegral_pos_of_pos
      (gaussian_intervalIntegrable x y) (fun t => Real.exp_pos _) hxy
  have hlt : (∫ t in (0:ℝ)..x, Real.exp (-t ^ 2)) < ∫ t in (0:ℝ)..y, Real.exp (-t ^ 2) := by
    rw [← hadj]; linarith
  exact mul_lt_mul_of_pos_left hlt erf_coeff_pos

lemma norm_erf_mono {w : ℝ} (hw : 0 < w) {x y : ℝ} (hxy : x ≤ y) :
    norm_erf x w ≤ norm_erf y w := by
  unfold norm_erf
  have harg : 2.0 * x / w ≤ 2.0 * y / w :=
    (div_le_div_iff_of_pos_right hw).mpr (by linarith)
  have := erf_monotone harg
  linarith

lemma norm_erf_strictMono {w : ℝ} (hw : 0 < w) {x y : ℝ} (hxy : x < y) :
    norm_erf x w < norm_erf y w := by
  unfold norm_erf
  have harg : 2.0 * x / w < 2.0 * y / w :=
    (div_lt_div_iff_of_pos_right hw).mpr (by linarith)
  have := erf_strictMono harg
  linarith

/-! ## Concrete generators used by witnesses and counterexamples -/

/-- A generator whose elementary draws are all `0`. -/
noncomputable def rngZero : Rng := ⟨fun _ => 0, fun _ => 0, 0, 0⟩

/-- A generator whose standard-normal draws are all `1`. -/
noncomputable def rngOne : Rng := ⟨fun _ => 0, fun _ => 1, 0, 0⟩

lemma rngZero_Wf : rngZero.Wf := fun _ => ⟨le_refl 0, zero_lt_one⟩

/-! ## The claims -/

/-- Claim C1, counterexample: the timed-acquisition device `SimI400Base`
with exposure set to `0.0` still spawns a background `_acquire` worker and
returns a handle that is not yet finished when `trigger()` returns — the
zero-delay synchronous fast path claimed for every delayed-completion
device does not exist there. -/
theorem C1_counterexample :
    (simI400_trigger (set_exposure ⟨0, [0]⟩ ⟨""⟩)).spawnedWorker = true ∧
    (simI400_trigger (set_exposure ⟨0, [0]⟩ ⟨""⟩)).handle = HandleState.pending ∧
    simI400_acquire_duration (set_exposure ⟨0, [0]⟩ ⟨""⟩) = some 0 := by
  refine ⟨rfl, rfl, ?_⟩
  have hparse : pyFloatParse (pyFStr ⟨0, [0]⟩) = some ⟨0, [0]⟩ := by decide
  show (pyFloatParse (pyFStr ⟨0, [0]⟩)).map PyDecimal.value = some 0
  rw [hparse, Option.map_some']
  norm_num [PyDecimal.value]

/-- Claim C1, amended: the delayed signal `SynSignalDelayed` returns a
pending handle and spawns a worker sleeping `d` for a nonzero delay, and
for `d = 0` finishes the handle synchronously without spawning background
work; the timed-acquisition device `SimI400Base` instead always spawns a
background worker and returns a handle that is still pending when
`trigger()` returns, whatever the configured exposure. -/
theorem C1_amended_delayed_completion (d : ℚ) (hd : 0 < d) (s : SimI400State) :
    synSignalDelayed_trigger d =
      { handle := .pending, spawnedWorker := true, workerSleep := some d } ∧
    synSignalDelayed_trigger 0 =
      { handle := .finished, spawnedWorker := false, workerSleep := none } ∧
    (simI400_trigger s).handle = .pending ∧
    (simI400_trigger s).spawnedWorker = true := by
  refine ⟨?_, by decide, rfl, rfl⟩
  unfold synSignalDelayed_trigger
  rw [if_neg (ne_of_gt hd)]

/-- Claim C1, witness for the amended theorem at delay `2` and exposure
text `"0.0"`. -/
theorem C1_witness :
    (0 : ℚ) < 2 ∧
    (synSignalDelayed_trigger 2 =
        { handle := .pending, spawnedWorker := true, workerSleep := some 2 } ∧
      synSignalDelayed_trigger 0 =
        { handle := .finished, spawnedWorker := false, workerSleep := none } ∧
      (simI400_trigger ⟨"0.0"⟩).handle = .pending ∧
      (simI400_trigger ⟨"0.0"⟩).spawnedWorker = true) :=
  ⟨by decide, C1_amended_delayed_completion 2 (by decide) ⟨"0.0"⟩⟩

/-- Claim C2: a `SynSignalDelayed` read re-invokes the compute function at
read time against the current configuration — after any sequence of
triggers and configuration mutations the value returned is the compute
function applied to the configuration now in force, it is independent of
whatever readback was cached, and in particular a mutation between a
trigger and the read is reflected in the read. -/
theorem C2_read_reinvokes_compute {C : Type} (func : C → ℚ)
    (s : SynSignalDelayedState C) (ops : List (DevOp C)) (cache : ℚ) (c : C) :
    (synSignalDelayed_read func (applyOps s ops)).1 = func (applyOps s ops).cfg ∧
    (synSignalDelayed_read func { applyOps s ops with stored := cache }).1 =
      func (applyOps s ops).cfg ∧
    (synSignalDelayed_read func (applyOps s [DevOp.trigger, DevOp.mutate c])).1 = func c :=
  ⟨rfl, rfl, rfl⟩

/-- Claim C3, counterexample: for a transmission-configured erf device
(`sign = +1`, `width = 1`, `Imax = 1`, no noise), moving from
`distance = 0` to `distance = -1` increases `sign * (-distance)` from `0`
to `1`, yet the computed value strictly decreases — so the value is not
monotonically non-decreasing in `sign * (-distance())` as claimed. -/
theorem C3_counterexample :
    (synErf_compute ⟨1, 0, 1, .none, 0.1, 0.1⟩ (synErf_sign true) (-1) rngZero).1 <
    (synErf_compute ⟨1, 0, 1, .none, 0.1, 0.1⟩ (synErf_sign true) 0 rngZero).1 := by
  show (1 : ℝ) * norm_erf ((-1) * synErf_sign true) 1 <
    (1 : ℝ) * norm_erf (0 * synErf_sign true) 1
  have hsign : synErf_sign true = 1 := rfl
  rw [hsign, mul_one, zero_mul, one_mul, one_mul]
  exact norm_erf_strictMono one_pos (by norm_num)

/-- Claim C3, amended: for every `width > 0` and nonnegative `Imax`, the
noiseless erf value is monotonically non-decreasing in
`sign * distance()` — non-decreasing in the distance for a
transmission-configured device and non-increasing for a
reflection-configured one (equivalently, non-increasing in
`sign * (-distance())` for both). -/
theorem C3_amended_monotone (Imax c w nm ns d₁ d₂ : ℝ) (t : Bool) (rng : Rng)
    (hI : 0 ≤ Imax) (hw : 0 < w)
    (h : synErf_sign t * d₁ ≤ synErf_sign t * d₂) :
    (synErf_compute ⟨Imax, c, w, .none, nm, ns⟩ (synErf_sign t) d₁ rng).1 ≤
    (synErf_compute ⟨Imax, c, w, .none, nm, ns⟩ (synErf_sign t) d₂ rng).1 := by
  show Imax * norm_erf (d₁ * synErf_sign t) w ≤ Imax * norm_erf (d₂ * synErf_sign t) w
  refine mul_le_mul_of_nonneg_left ?_ hI
  exact norm_erf_mono hw (by simpa [mul_comm] using h)

/-- Claim C3, witness for the amended theorem: transmission device,
`width = 1`, `Imax = 1`, distances `0 ≤ 1`. -/
theorem C3_witness :
    (0 : ℝ) ≤ 1 ∧ (0 : ℝ) < 1 ∧
    (synErf_compute ⟨1, 0, 1, .none, 0.1, 0.1⟩ (synErf_sign true) 0 rngZero).1 ≤
      (synErf_compute ⟨1, 0, 1, .none, 0.1, 0.1⟩ (synErf_sign true) 1 rngZero).1 :=
  ⟨zero_le_one, zero_lt_one,
    C3_amended_monotone 1 0 1 0.1 0.1 0 1 true rngZero zero_le_one zero_lt_one
      (by simp [synErf_sign])⟩

/-- Claim C4: the linear-response device computes exactly
`slope * x + offset` — deterministically, with no noise term — and the
value installed in `val` by construction is exactly that number. -/
theorem C4_linear_exact (slope offset x : ℚ) :
    synLinear_compute ⟨slope, offset⟩ x = slope * x + offset ∧
    (synLinear_init (some x) offset slope).1 =
      some ⟨offset, slope, slope * x + offset⟩ :=
  ⟨rfl, rfl⟩

/-- Claim C5: the noise model of the erf device satisfies, for a
well-formed generator: kind `none` returns the base value unchanged; kind
`uniform` returns `base + u * noise_multiplier` with `u` a uniform draw on
`[-1, 1)`; kind `normal` returns the generator's draw from
`Normal(base, noise_sigma)`, whose realisation is the base value plus
`noise_sigma` times a standard-normal draw — the mean of the distribution
is the base value itself. -/
theorem C5_noise_model (cfg : SynErfCfg) (sign dist : ℝ) (rng : Rng) (hwf : rng.Wf) :
    (synErf_compute { cfg with noise := .none } sign dist rng).1 =
      synErf_baseValue cfg sign dist ∧
    (∃ u, -1 ≤ u ∧ u < 1 ∧
      (synErf_compute { cfg with noise := .uniform } sign dist rng).1 =
        synErf_baseValue cfg sign dist + u * cfg.noise_multiplier) ∧
    (synErf_compute { cfg with noise := .normal } sign dist rng).1 =
      (rng.normal (synErf_baseValue cfg sign dist) cfg.noise_sigma).1 ∧
    (rng.normal (synErf_baseValue cfg sign dist) cfg.noise_sigma).1 =
      synErf_baseValue cfg sign dist + cfg.noise_sigma * rng.stdNormalVals rng.nIdx := by
  obtain ⟨h0, h1⟩ := hwf rng.uIdx
  refine ⟨rfl, ⟨-1 + (1 - -1) * rng.unitVals rng.uIdx, by linarith, by linarith, rfl⟩,
    rfl, rfl⟩

/-- Claim C5, witness: the noiseless configuration at distance `0`,
transmission sign, and the all-zero generator. -/
theorem C5_witness :
    rngZero.Wf ∧
    ((synErf_compute { (⟨1, 0, 1, .none, 0.1, 0.1⟩ : SynErfCfg) with noise := .none }
        1 0 rngZero).1 =
      synErf_baseValue ⟨1, 0, 1, .none, 0.1, 0.1⟩ 1 0 ∧
    (∃ u, -1 ≤ u ∧ u < 1 ∧
      (synErf_compute { (⟨1, 0, 1, .none, 0.1, 0.1⟩ : SynErfCfg) with noise := .uniform }
          1 0 rngZero).1 =
        synErf_baseValue ⟨1, 0, 1, .none, 0.1, 0.1⟩ 1 0 +
          u * (⟨1, 0, 1, .none, 0.1, 0.1⟩ : SynErfCfg).noise_multiplier) ∧
    (synErf_compute { (⟨1, 0, 1, .none, 0.1, 0.1⟩ : SynErfCfg) with noise := .normal }
        1 0 rngZero).1 =
      (rngZero.normal (synErf_baseValue ⟨1, 0, 1, .none, 0.1, 0.1⟩ 1 0)
        (⟨1, 0, 1, .none, 0.1, 0.1⟩ : SynErfCfg).noise_sigma).1 ∧
    (rngZero.normal (synErf_baseValue ⟨1, 0, 1, .none, 0.1, 0.1⟩ 1 0)
        (⟨1, 0, 1, .none, 0.1, 0.1⟩ : SynErfCfg).noise_sigma).1 =
      synErf_baseValue ⟨1, 0, 1, .none, 0.1, 0.1⟩ 1 0 +
        (⟨1, 0, 1, .none, 0.1, 0.1⟩ : SynErfCfg).noise_sigma *
          rngZero.stdNormalVals rngZero.nIdx) :=
  ⟨rngZero_Wf, C5_noise_model ⟨1, 0, 1, .none, 0.1, 0.1⟩ 1 0 rngZero rngZero_Wf⟩

/-- Claim C6: the exposure-time setter stores the duration as text and the
acquisition path parses it back; for every well-formed decimal duration
the parsed-back seconds value equals the value that was set. -/
theorem C6_exposure_roundtrip (d : PyDecimal) (s : SimI400State) (h : d.Valid) :
    simI400_acquire_duration (set_exposure d s) = some d.value := by
  show (pyFloatParse (pyFStr d)).map PyDecimal.value = some d.value
  rw [pyFloatParse_pyFStr d h, Option.map_some']
  by_cases hf : d.fracDigits.isEmpty
  · have hnil : d.fracDigits = [] := List.isEmpty_iff.mp hf
    rw [if_pos hf]
    unfold PyDecimal.value
    rw [hnil]
    norm_num
  · rw [if_neg hf]

/-- Claim C6, witness: setting exposure to `1.5` stores `"1.5"`, which
parses back to the seconds value `3/2 = 1.5`. -/
theorem C6_witness :
    PyDecimal.Valid ⟨1, [5]⟩ ∧
    simI400_acquire_duration (set_exposure ⟨1, [5]⟩ ⟨""⟩) = some ((3 : ℚ) / 2) :=
  ⟨by decide, by
    have h := C6_exposure_roundtrip ⟨1, [5]⟩ ⟨""⟩ (by decide)
    rwa [show PyDecimal.value ⟨1, [5]⟩ = (3 : ℚ) / 2 from by
      norm_num [PyDecimal.value]] at h⟩

/-- Claim C7, counterexample: the normal-distributed device draws from the
process-wide generator inside `_compute`; with identical construction
arguments, configuration and inputs, two runs whose process-wide
generators differ produce different outputs, and the constructor offers no
generator parameter through which a caller could inject one. -/
theorem C7_counterexample :
    (synNormal_compute ⟨0, 1⟩ rngZero).1 ≠ (synNormal_compute ⟨0, 1⟩ rngOne).1 := by
  show (0 + 1 * (0 : ℝ)) ≠ (0 + 1 * 1)
  norm_num

/-- Claim C7, amended: the erf device's generator is injectable at
construction — with an injected generator its computed value is
independent of the process-wide generator, and the process-wide generator
is used only when no generator is supplied — whereas the
normal-distributed device draws unconditionally from the process-wide
generator. -/
theorem C7_amended_injection (cfg : SynErfCfg) (sign dist : ℝ) (r g₁ g₂ : Rng)
    (ncfg : SynNormalCfg) :
    synErf_read_value cfg sign dist (synErf_init_randomState (some r)) g₁ =
      synErf_read_value cfg sign dist (synErf_init_randomState (some r)) g₂ ∧
    synErf_init_randomState Option.none = RngSource.processWide ∧
    (synNormal_compute ncfg g₁).1 =
      ncfg.center + ncfg.width * g₁.stdNormalVals g₁.nIdx :=
  ⟨rfl, rfl, rfl⟩

/-- Claim C8: the derived device's read equals its single dependency's
most recent read value, for any sequence of dependency configuration
mutations after that read — the dependency's stored readback, which the
derived compute returns, is exactly the value the dependency's last read
produced and configuration mutations do not disturb it. -/
theorem C8_derived_passthrough {C : Type} (g : C → ℚ) (s : SynSignalDelayedState C)
    (muts : List C) (ownStored : ℚ) :
    (synSignalDelayed_read
        (fun _ => derivedSyn_compute (applyMutations muts (synSignalDelayed_read g s).2))
        ⟨(), ownStored⟩).1 =
      (synSignalDelayed_read g s).1 := by
  show derivedSyn_compute (applyMutations muts (synSignalDelayed_read g s).2) =
    (synSignalDelayed_read g s).1
  unfold derivedSyn_compute
  rw [applyMutations_stored]
  rfl

/-- Claim C9: the erf device's computed value does not depend on its
`center` configuration parameter — two configurations differing only in
`center`, with identical distance, sign, width, Imax, noise settings and
generator state, compute identical results. -/
theorem C9_center_irrelevant (cfg : SynErfCfg) (c₁ c₂ sign dist : ℝ) (rng : Rng) :
    synErf_compute { cfg with center := c₁ } sign dist rng =
      synErf_compute { cfg with center := c₂ } sign dist rng := rfl

/-- Claim C10: constructing the linear device triggers an immediate
compute — the input function is invoked exactly once and its failure
propagates out of the constructor, a successful input installing
`slope*x + offset` as the readback; constructing the normal device
likewise computes once, consuming one process-wide normal draw; whereas
constructing the erf device performs no trigger: the distance function is
never invoked, construction succeeds even for a failing distance function,
and no readback is installed. -/
theorem C10_construction_triggers (offset slope xv : ℚ) (w c : ℝ) (g : Rng)
    (dOpt : Option ℝ) (nk : NoiseKind) (ns nm : ℝ) (rs : Option Rng) (t : Bool) :
    (synLinear_init none offset slope).1 = none ∧
    (synLinear_init none offset slope).2 = 1 ∧
    (synLinear_init (some xv) offset slope).1 =
      some ⟨offset, slope, synLinear_compute ⟨slope, offset⟩ xv⟩ ∧
    (synLinear_init (some xv) offset slope).2 = 1 ∧
    ((synNormal_init w c g).2).nIdx = g.nIdx + 1 ∧
    (synNormal_init w c g).1.valStored = (synNormal_compute ⟨c, w⟩ g).1 ∧
    (synErf_init dOpt w nk ns nm rs t).2 = 0 ∧
    (synErf_init dOpt w nk ns nm rs t).1.valStored = Option.none :=
  ⟨rfl, rfl, rfl, rfl, rfl, rfl, rfl, rfl⟩

end SstSim
